import Mathlib

/-!
Shallow embedding of `main.py` (console address book): the validated fields
Name / Phone / Birthday, the Record aggregate, the dictionary-backed
AddressBook, the upcoming-birthday query, and the command layer wrapped by
the `input_error` decorator.

Python errors are modelled by `PyErr`.  The source raises only `ValueError`
and `IndexError`; `otherError` stands for every other Python exception kind
(e.g. `AttributeError`), which the `input_error` decorator does not catch.
-/

set_option maxRecDepth 4000

inductive PyErr where
  | valueError (msg : String)
  | indexError (msg : String)
  | otherError (msg : String)
deriving DecidableEq

/-- A Python `datetime.date` value: a (year, month, day) triple.  Only
triples accepted by the `date` constructor (see `isValidDate`) are ever
produced by the embedded operations. -/
structure Date where
  year : Nat
  month : Nat
  day : Nat
deriving DecidableEq

/-- Gregorian leap-year rule used by Python's `datetime`. -/
def isLeap (y : Nat) : Bool :=
  y % 4 == 0 && (y % 100 != 0 || y % 400 == 0)

/-- Length of a month per Python's `calendar`/`datetime` rules.  The value
for `m` outside 1..12 is irrelevant: `isValidDate` checks the month range
separately. -/
def daysInMonth (y m : Nat) : Nat :=
  if m == 2 then (if isLeap y then 29 else 28)
  else if m == 4 || m == 6 || m == 9 || m == 11 then 30
  else 31

/-- The check performed by the `datetime.date` constructor (and by
`date.replace`): year within MINYEAR..MAXYEAR = 1..9999, month 1..12, day
within the month. -/
def isValidDate (y m d : Nat) : Bool :=
  decide (1 ≤ y ∧ y ≤ 9999 ∧ 1 ≤ m ∧ m ≤ 12 ∧ 1 ≤ d ∧ d ≤ daysInMonth y m)

/-- Python date comparison is lexicographic on (year, month, day). -/
def dateLt (a b : Date) : Bool :=
  decide (a.year < b.year ∨ (a.year = b.year ∧
    (a.month < b.month ∨ (a.month = b.month ∧ a.day < b.day))))

def dateLe (a b : Date) : Bool :=
  dateLt a b || a == b

/-- Successor date (one calendar day later). -/
def nextDay (d : Date) : Date :=
  if d.day < daysInMonth d.year d.month then ⟨d.year, d.month, d.day + 1⟩
  else if d.month < 12 then ⟨d.year, d.month + 1, 1⟩
  else ⟨d.year + 1, 1, 1⟩

/-- `d + timedelta(days=n)`, realised by iterating the calendar successor;
agrees with Python's ordinal arithmetic on valid dates. -/
def addDays : Date → Nat → Date
  | d, 0 => d
  | d, n + 1 => addDays (nextDay d) n

/-- `date.replace(year=y)`: keeps month and day, revalidates; raises
`ValueError` (here: `none`) when the resulting triple is not a valid date,
e.g. Feb 29 moved to a non-leap year. -/
def replaceYear (b : Date) (y : Nat) : Option Date :=
  if isValidDate y b.month b.day then some ⟨y, b.month, b.day⟩ else none

/-- `Name.__init__`: `if not value: raise ValueError("Name cannot be empty.")`.
A Python string is falsy exactly when it is empty. -/
def mkName (value : String) : Except PyErr String :=
  if value = "" then .error (.valueError ("Name cannot be empty.")) else .ok value

/-- `Phone.validate`: `re.match(r"^\d{10}$", phone) is not None`.
With Python `re` semantics the pattern matches exactly the strings made of
ten digit characters, or ten digit characters followed by one trailing
newline (the `$` anchor also matches just before a final `\n`).  `\d` is
modelled as the ASCII digits. -/
def phoneValidate (phone : String) : Bool :=
  let cs := phone.data
  (cs.length == 10 && cs.all Char.isDigit) ||
  (cs.length == 11 && (cs.take 10).all Char.isDigit && cs.getLast? == some '\n')

/-- `Phone.__init__`: validate, then store the raw value verbatim. -/
def mkPhone (value : String) : Except PyErr String :=
  if phoneValidate value then .ok value
  else .error (.valueError ("Invalid phone number format."))

/-- Decimal value of a digit string (most significant first). -/
def natOfDigits (cs : List Char) : Nat :=
  cs.foldl (fun a c => 10 * a + (c.toNat - 48)) 0

/-- The parse performed by `datetime.strptime(value, "%d.%m.%Y")` followed by
the `date` constructor.  CPython's `_strptime` compiles `%d` to
`3[01]|[12]\d|0[1-9]|[1-9]` (one or two digits, value 1..31), `%m` to
`1[0-2]|0[1-9]|[1-9]` (one or two digits, value 1..12) and `%Y` to exactly
four digits, requires the whole string to match, and then builds the date,
which revalidates the calendar combination. -/
def parseDMY (cs : List Char) : Option Date :=
  let dtok := cs.takeWhile Char.isDigit
  match cs.dropWhile Char.isDigit with
  | c1 :: rest1 =>
    if c1 = '.' then
      let mtok := rest1.takeWhile Char.isDigit
      match rest1.dropWhile Char.isDigit with
      | c2 :: rest2 =>
        if c2 = '.' then
          let ytok := rest2.takeWhile Char.isDigit
          match rest2.dropWhile Char.isDigit with
          | [] =>
            if 1 ≤ dtok.length ∧ dtok.length ≤ 2 ∧
               1 ≤ natOfDigits dtok ∧ natOfDigits dtok ≤ 31 ∧
               1 ≤ mtok.length ∧ mtok.length ≤ 2 ∧
               1 ≤ natOfDigits mtok ∧ natOfDigits mtok ≤ 12 ∧
               ytok.length = 4 ∧
               isValidDate (natOfDigits ytok) (natOfDigits mtok) (natOfDigits dtok) = true then
              some ⟨natOfDigits ytok, natOfDigits mtok, natOfDigits dtok⟩
            else none
          | _ => none
        else none
      | _ => none
    else none
  | [] => none

/-- `Birthday.__init__`: parse with `strptime`, store the `date`; any
`ValueError` is replaced by the fixed format message. -/
def mkBirthday (value : String) : Except PyErr Date :=
  match parseDMY value.data with
  | some d => .ok d
  | none => .error (.valueError ("Invalid date format. Use DD.MM.YYYY"))

/-- Two-digit zero-padded rendering (`%d` / `%m` of `strftime`), for n < 100. -/
def pad2 (n : Nat) : List Char :=
  [Nat.digitChar (n / 10), Nat.digitChar (n % 10)]

/-- Four-digit zero-padded rendering (`%Y` of `strftime` per Python's
documented format codes), for n < 10000. -/
def pad4 (n : Nat) : List Char :=
  [Nat.digitChar (n / 1000), Nat.digitChar (n / 100 % 10),
   Nat.digitChar (n / 10 % 10), Nat.digitChar (n % 10)]

/-- `value.strftime('%d.%m.%Y')` as used in `Record.__str__`,
`show_birthday` and `birthdays`. -/
def strftimeDMY (d : Date) : String :=
  ⟨pad2 d.day ++ ('.' :: (pad2 d.month ++ ('.' :: pad4 d.year)))⟩

/-- The `Record` aggregate: a validated name, an ordered phone list (each
entry a validated 10-digit string) and an optional birthday date. -/
structure Record where
  name : String
  phones : List String
  birthday : Option Date
deriving DecidableEq

/-- `Record.__init__`: validates the name, starts with no phones and no
birthday. -/
def mkRecord (name : String) : Except PyErr Record :=
  match mkName name with
  | .ok n => .ok ⟨n, [], none⟩
  | .error e => .error e

/-- `Record.add_phone`: appends a newly validated phone. -/
def Record.add_phone (r : Record) (phone : String) : Except PyErr Record :=
  match mkPhone phone with
  | .ok v => .ok { r with phones := r.phones ++ [v] }
  | .error e => .error e

/-- The loop body of `Record.edit_phone` over the phone list: replace the
first phone equal to `oldp` by a newly validated `Phone(newp)`; raise
`ValueError("Phone number not found.")` when the loop finishes without a
match. -/
def editPhonesGo (oldp newp : String) : List String → Except PyErr (List String)
  | [] => .error (.valueError ("Phone number not found."))
  | p :: ps =>
    if p = oldp then
      match mkPhone newp with
      | .ok v => .ok (v :: ps)
      | .error e => .error e
    else
      match editPhonesGo oldp newp ps with
      | .ok ps2 => .ok (p :: ps2)
      | .error e => .error e

/-- `Record.edit_phone`. -/
def Record.edit_phone (r : Record) (oldp newp : String) : Except PyErr Record :=
  match editPhonesGo oldp newp r.phones with
  | .ok ps => .ok { r with phones := ps }
  | .error e => .error e

/-- `Record.add_birthday`: sets (overwrites) the birthday. -/
def Record.add_birthday (r : Record) (value : String) : Except PyErr Record :=
  match mkBirthday value with
  | .ok d => .ok { r with birthday := some d }
  | .error e => .error e

/-- `Record.__str__`. -/
def recordStr (r : Record) : String :=
  "Contact name: " ++ r.name ++ ", phones: " ++ String.intercalate ("; ") r.phones ++
  (match r.birthday with
   | some b => ", birthday: " ++ strftimeDMY b
   | none => "")

/-- `AddressBook` inherits `UserDict`: its `data` is an insertion-ordered
mapping from name strings to records, modelled as an association list
without duplicate keys (the dictionary operations below preserve that). -/
structure AddressBook where
  data : List (String × Record)
deriving DecidableEq

/-- Python dict assignment `data[k] = v`: update the entry in place if the
key is present (keeping its position), else append at the end. -/
def dictSet : List (String × Record) → String → Record → List (String × Record)
  | [], k, v => [(k, v)]
  | (k0, v0) :: t, k, v =>
    if k0 = k then (k0, v) :: t else (k0, v0) :: dictSet t k v

/-- Python dict lookup `data.get(k)`. -/
def dictGet : List (String × Record) → String → Option Record
  | [], _ => none
  | (k0, v0) :: t, k => if k0 = k then some v0 else dictGet t k

/-- Python dict deletion `del data[k]` (key assumed unique). -/
def dictDel : List (String × Record) → String → List (String × Record)
  | [], _ => []
  | (k0, v0) :: t, k => if k0 = k then dictDel t k else (k0, v0) :: dictDel t k

/-- `AddressBook.add_record`: `self.data[record.name.value] = record`. -/
def AddressBook.add_record (book : AddressBook) (r : Record) : AddressBook :=
  ⟨dictSet book.data r.name r⟩

/-- `AddressBook.find`: `self.data.get(name)`. -/
def AddressBook.find (book : AddressBook) (name : String) : Option Record :=
  dictGet book.data name

/-- `AddressBook.delete`: delete the entry, or raise
`ValueError("Record not found.")` when the name is absent. -/
def AddressBook.delete (book : AddressBook) (name : String) : Except PyErr AddressBook :=
  if (dictGet book.data name).isSome then .ok ⟨dictDel book.data name⟩
  else .error (.valueError ("Record not found."))

/-- `self.data.values()` in insertion order. -/
def AddressBook.values (book : AddressBook) : List Record :=
  book.data.map (fun p => p.2)

/-- The loop of `get_upcoming_birthdays`.  For each record with a birthday,
`birthday.replace(year=today.year)` is computed (a `ValueError` escapes for
Feb 29 in a non-leap year), advanced one year when strictly before today
(again via `replace`, again fallible), and the record is collected when the
anniversary lies in the inclusive window [today, nextWeek]. -/
def upcomingGo (today nextWeek : Date) : List Record → Except PyErr (List Record)
  | [] => .ok []
  | r :: rs =>
    match r.birthday with
    | none => upcomingGo today nextWeek rs
    | some b =>
      match replaceYear b today.year with
      | none => .error (.valueError ("day is out of range for month"))
      | some nb =>
        match (if dateLt nb today then replaceYear b (today.year + 1) else some nb) with
        | none => .error (.valueError ("day is out of range for month"))
        | some nb2 =>
          match upcomingGo today nextWeek rs with
          | .ok l => .ok (if dateLe today nb2 && dateLe nb2 nextWeek then r :: l else l)
          | .error e => .error e

/-- `get_upcoming_birthdays`.  The source reads `datetime.today().date()`;
the reference date is passed explicitly here. -/
def get_upcoming_birthdays (today : Date) (book : AddressBook) : Except PyErr (List Record) :=
  upcomingGo today (addDays today 7) book.values

/-- Command bodies return a result-or-raised-error together with the
address book state after the call (mutations performed before a raise are
kept, as in Python). -/
abbrev CmdResult := Except PyErr String × AddressBook

/-- The `input_error` decorator: catches `ValueError` and `IndexError` and
returns the exception text; other exception kinds propagate. -/
def input_error (res : CmdResult) : Except PyErr (String × AddressBook) :=
  match res with
  | (.ok s, b) => .ok (s, b)
  | (.error (.valueError m), b) => .ok (m, b)
  | (.error (.indexError m), b) => .ok (m, b)
  | (.error e, _) => .error e

/-- Body of `add_contact`: unpack `name, phone, *_`; reuse the existing
record if any, else create and insert a fresh one; then, when `phone` is
truthy (non-empty), append the validated phone to that record.  Note the
fresh record stays in the book even when the phone is then rejected. -/
def add_contact (args : List String) (book : AddressBook) : CmdResult :=
  match args with
  | name :: phone :: _ =>
    match book.find name with
    | some r =>
      if phone = "" then (.ok ("Contact updated."), book)
      else
        match r.add_phone phone with
        | .ok r2 => (.ok ("Contact updated."), ⟨dictSet book.data name r2⟩)
        | .error e => (.error e, book)
    | none =>
      match mkRecord name with
      | .error e => (.error e, book)
      | .ok r =>
        let book1 := book.add_record r
        if phone = "" then (.ok ("Contact added."), book1)
        else
          match r.add_phone phone with
          | .ok r2 => (.ok ("Contact added."), ⟨dictSet book1.data name r2⟩)
          | .error e => (.error e, book1)
  | _ => (.error (.valueError ("not enough values to unpack")), book)

/-- Body of `change_phone`: unpack exactly three arguments. -/
def change_phone (args : List String) (book : AddressBook) : CmdResult :=
  match args with
  | [name, oldp, newp] =>
    match book.find name with
    | none => (.error (.valueError ("Contact not found.")), book)
    | some r =>
      match r.edit_phone oldp newp with
      | .ok r2 => (.ok ("Phone number updated."), ⟨dictSet book.data name r2⟩)
      | .error e => (.error e, book)
  | _ => (.error (.valueError ("cannot unpack args")), book)

/-- Body of `show_phones`: `args[0]` raises `IndexError` on an empty list.
The comprehension filter `p.value is not None` never drops anything, since
stored phone values are strings. -/
def show_phones (args : List String) (book : AddressBook) : CmdResult :=
  match args with
  | [] => (.error (.indexError ("list index out of range")), book)
  | name :: _ =>
    match book.find name with
    | none => (.error (.valueError ("Contact not found.")), book)
    | some r =>
      (.ok (if r.phones.isEmpty then "No phones found."
            else "Phones: " ++ String.intercalate ("; ") r.phones), book)

/-- Body of `add_birthday` (the command): unpack exactly two arguments. -/
def add_birthday (args : List String) (book : AddressBook) : CmdResult :=
  match args with
  | [name, bd] =>
    match book.find name with
    | none => (.error (.valueError ("Contact not found.")), book)
    | some r =>
      match r.add_birthday bd with
      | .ok r2 => (.ok ("Birthday added."), ⟨dictSet book.data name r2⟩)
      | .error e => (.error e, book)
  | _ => (.error (.valueError ("cannot unpack args")), book)

/-- Body of `show_birthday`. -/
def show_birthday (args : List String) (book : AddressBook) : CmdResult :=
  match args with
  | [] => (.error (.indexError ("list index out of range")), book)
  | name :: _ =>
    match book.find name with
    | none => (.error (.valueError ("Contact not found.")), book)
    | some r =>
      match r.birthday with
      | some b => (.ok ("Birthday: " ++ strftimeDMY b), book)
      | none => (.ok ("No birthday set."), book)

/-- One line of the `birthdays` report:
`record.birthday.value.strftime(...)` would raise `AttributeError` (not
caught by `input_error`) on a record without a birthday; such records never
occur in the query result. -/
def birthLine (r : Record) : Except PyErr String :=
  match r.birthday with
  | some b => .ok (r.name ++ ": " ++ strftimeDMY b)
  | none => .error (.otherError ("AttributeError"))

def birthLines : List Record → Except PyErr (List String)
  | [] => .ok []
  | r :: rs =>
    match birthLine r with
    | .error e => .error e
    | .ok s =>
      match birthLines rs with
      | .error e => .error e
      | .ok ss => .ok (s :: ss)

/-- Body of the `birthdays` command. -/
def birthdays (today : Date) (_args : List String) (book : AddressBook) : CmdResult :=
  match get_upcoming_birthdays today book with
  | .error e => (.error e, book)
  | .ok ups =>
    if ups.isEmpty then (.ok ("No upcoming birthdays."), book)
    else
      match birthLines ups with
      | .ok lines => (.ok (String.intercalate ("\n") lines), book)
      | .error e => (.error e, book)

/-- Body of `delete_contact`. -/
def delete_contact (args : List String) (book : AddressBook) : CmdResult :=
  match args with
  | [] => (.error (.indexError ("list index out of range")), book)
  | name :: _ =>
    match book.delete name with
    | .ok b2 => (.ok ("Contact deleted."), b2)
    | .error e => (.error e, book)

def add_contact_cmd (args : List String) (book : AddressBook) :=
  input_error (add_contact args book)

def change_phone_cmd (args : List String) (book : AddressBook) :=
  input_error (change_phone args book)

def show_phones_cmd (args : List String) (book : AddressBook) :=
  input_error (show_phones args book)

def add_birthday_cmd (args : List String) (book : AddressBook) :=
  input_error (add_birthday args book)

def show_birthday_cmd (args : List String) (book : AddressBook) :=
  input_error (show_birthday args book)

def birthdays_cmd (today : Date) (args : List String) (book : AddressBook) :=
  input_error (birthdays today args book)

def delete_contact_cmd (args : List String) (book : AddressBook) :=
  input_error (delete_contact args book)

/-! Spec-side definitions: predicates and concrete data written from the
claims' words, to be compared with the embedded source functions. -/

/-- Claim-side acceptance condition for `Phone`, amended: exactly ten digit
characters, or ten digit characters followed by a single trailing newline
(which Python's `$` anchor also accepts). -/
def claimPhoneOk (p : String) : Prop :=
  (p.data.length = 10 ∧ ∀ c ∈ p.data, c.isDigit = true) ∨
  (∃ ds : List Char, p.data = ds ++ ['\n'] ∧ ds.length = 10 ∧ ∀ c ∈ ds, c.isDigit = true)

/-- Claim-side acceptance condition for `Birthday`, amended: a day token of
one or two digits with value 1..31, a literal dot, a month token of one or
two digits with value 1..12, a literal dot, a year token of exactly four
digits, nothing else, and the three values must form a valid calendar
date. -/
def claimBirthdayOk (s : String) (dt : Date) : Prop :=
  ∃ dk mk yk : List Char,
    s.data = dk ++ ('.' :: (mk ++ ('.' :: yk))) ∧
    (∀ c ∈ dk, c.isDigit = true) ∧ (∀ c ∈ mk, c.isDigit = true) ∧
    (∀ c ∈ yk, c.isDigit = true) ∧
    1 ≤ dk.length ∧ dk.length ≤ 2 ∧ 1 ≤ mk.length ∧ mk.length ≤ 2 ∧
    yk.length = 4 ∧
    1 ≤ natOfDigits dk ∧ natOfDigits dk ≤ 31 ∧
    1 ≤ natOfDigits mk ∧ natOfDigits mk ≤ 12 ∧
    isValidDate (natOfDigits yk) (natOfDigits mk) (natOfDigits dk) = true ∧
    dt = ⟨natOfDigits yk, natOfDigits mk, natOfDigits dk⟩

/-- Claim-side index of the first phone equal to `o` ("finds the first
phone equal to oldValue"). -/
def firstEqIdx : List String → String → Option Nat
  | [], _ => none
  | p :: ps, o => if p = o then some 0 else (firstEqIdx ps o).map (fun i => i + 1)

/-- Claim-side membership condition of the upcoming-birthday query: the
record has a birthday, and its anniversary — the birthday with the year
replaced by today's year, advanced one year when strictly before today —
lies in the inclusive window [today, nextWeek]. -/
def claimIncluded (today nextWeek : Date) (r : Record) : Bool :=
  match r.birthday with
  | none => false
  | some b =>
    let a : Date := ⟨today.year, b.month, b.day⟩
    let a2 : Date := if dateLt a today then ⟨today.year + 1, b.month, b.day⟩ else a
    dateLe today a2 && dateLe a2 nextWeek

/-- An address book holding a single record with the leap-day birthday
29.02.2020. -/
def leapBook : AddressBook :=
  ⟨[("Ann", ⟨"Ann", [], some ⟨2020, 2, 29⟩⟩)]⟩

/-- Records of the spec's upcoming-birthdays scenario. -/
def recA : Record := ⟨"A", [], some ⟨1990, 6, 12⟩⟩

def recB : Record := ⟨"B", [], some ⟨1990, 1, 1⟩⟩

def recC : Record := ⟨"C", [], none⟩

/-- The spec's upcoming-birthdays scenario book: A (12.06.1990),
B (01.01.1990), C (no birthday). -/
def scenarioBook : AddressBook :=
  ⟨[("A", recA), ("B", recB), ("C", recC)]⟩

/-- A one-record book used to witness the add-contact append behavior. -/
def bobBook : AddressBook :=
  ⟨[("Bob", ⟨"Bob", ["1111111111"], some ⟨1990, 6, 12⟩⟩)]⟩

/-! Helper lemmas. -/

theorem dictGet_dictSet (l : List (String × Record)) (n : String) (v : Record) (k : String) :
    dictGet (dictSet l n v) k = if k = n then some v else dictGet l k := by
  induction l with
  | nil =>
    by_cases h : k = n
    · subst h; simp [dictSet, dictGet]
    · simp [dictSet, dictGet, h, Ne.symm h]
  | cons hd tl ih =>
    obtain ⟨k0, v0⟩ := hd
    by_cases h1 : k0 = n
    · subst h1
      by_cases h2 : k0 = k
      · subst h2; simp [dictSet, dictGet]
      · simp [dictSet, dictGet, h2, Ne.symm h2]
    · by_cases h2 : k0 = k
      · subst h2
        simp [dictSet, dictGet, h1, Ne.symm h1]
      · simp [dictSet, dictGet, h1, h2, Ne.symm h2, ih]

theorem phoneValidate_iff (p : String) : phoneValidate p = true ↔ claimPhoneOk p := by
  unfold phoneValidate claimPhoneOk
  simp only [Bool.or_eq_true, Bool.and_eq_true, beq_iff_eq, List.all_eq_true]
  constructor
  · rintro (⟨hlen, hdig⟩ | ⟨⟨hlen, hdig⟩, hlast⟩)
    · exact Or.inl ⟨hlen, hdig⟩
    · rcases List.eq_nil_or_concat p.data with hnil | ⟨ds, b, hds⟩
      · rw [hnil] at hlen; simp at hlen
      · rw [List.concat_eq_append] at hds
        have hlds : ds.length = 10 := by
          rw [hds] at hlen; simp at hlen; omega
        have hb : b = '\n' := by
          rw [hds, List.getLast?_concat] at hlast
          exact Option.some_inj.mp hlast
        have htake : p.data.take 10 = ds := by
          rw [hds, ← hlds]; exact List.take_left ds [b]
        rw [htake] at hdig
        exact Or.inr ⟨ds, by rw [hds, hb], hlds, hdig⟩
  · rintro (⟨hlen, hdig⟩ | ⟨ds, hds, hlen, hdig⟩)
    · exact Or.inl ⟨hlen, hdig⟩
    · have htake : p.data.take 10 = ds := by
        rw [hds, ← hlen]; exact List.take_left ds ['\n']
      refine Or.inr ⟨⟨?_, ?_⟩, ?_⟩
      · rw [hds]; simp [hlen]
      · rw [htake]; exact hdig
      · rw [hds]; exact List.getLast?_concat ds

theorem editPhonesGo_eq (oldp newp : String) (ps : List String) :
    editPhonesGo oldp newp ps =
      match firstEqIdx ps oldp with
      | none => .error (.valueError ("Phone number not found."))
      | some i =>
        if phoneValidate newp then .ok (ps.set i newp)
        else .error (.valueError ("Invalid phone number format.")) := by
  induction ps with
  | nil => rfl
  | cons p ps ih =>
    by_cases h : p = oldp
    · by_cases hv : phoneValidate newp <;>
        simp [editPhonesGo, firstEqIdx, h, mkPhone, hv]
    · cases hf : firstEqIdx ps oldp with
      | none =>
        rw [hf] at ih
        simp [editPhonesGo, firstEqIdx, h, hf, ih]
      | some i =>
        rw [hf] at ih
        by_cases hv : phoneValidate newp <;>
          simp [editPhonesGo, firstEqIdx, h, hf, ih, hv]

/-! Claim theorems. -/

/-- C2 counterexample: `Phone("0123456789\n")` succeeds although its value
is an eleven-character string, not ten ASCII digits and nothing else — the
`$` anchor of `re.match(r"^\d{10}$", ...)` also matches just before a
trailing newline. -/
theorem phone_trailing_newline_accepted :
    mkPhone ("0123456789\n") = .ok ("0123456789\n") ∧
    ("0123456789\n").data.length ≠ 10 :=
  ⟨rfl, by decide⟩

/-- C2 (amended): for every string p, `Phone(p)` succeeds with the stored
value equal to p verbatim exactly when p is ten digit characters, or ten
digit characters followed by a single trailing newline; otherwise the
construction is rejected with `ValueError("Invalid phone number format.")`. -/
theorem phone_construct_charact (p : String) :
    (mkPhone p = .ok p ↔ claimPhoneOk p) ∧
    (mkPhone p = .ok p ∨
      mkPhone p = .error (.valueError ("Invalid phone number format."))) := by
  constructor
  · rw [← phoneValidate_iff]
    unfold mkPhone
    by_cases h : phoneValidate p <;> simp [h]
  · unfold mkPhone
    by_cases h : phoneValidate p <;> simp [h]

/-- C4: `Record.edit_phone(old, new)` replaces the first phone equal to
`old` in place by a validated `Phone(new)` (all other positions kept);
when no phone equals `old` it raises `ValueError("Phone number not
found.")`, and when `new` is invalid it raises the phone validation error;
in the failure cases no new record state is produced, so the phone list is
unchanged. -/
theorem edit_phone_charact (r : Record) (oldp newp : String) :
    r.edit_phone oldp newp =
      match firstEqIdx r.phones oldp with
      | none => .error (.valueError ("Phone number not found."))
      | some i =>
        if phoneValidate newp then .ok { r with phones := r.phones.set i newp }
        else .error (.valueError ("Invalid phone number format.")) := by
  unfold Record.edit_phone
  rw [editPhonesGo_eq]
  cases firstEqIdx r.phones oldp with
  | none => rfl
  | some i => by_cases hv : phoneValidate newp <;> simp [hv]

/-- C5: on a book holding the leap-day birthday 29.02.2020 and the
reference date 01.01.2023 (so the year substituted by
`birthday.replace(year=today.year)` is the non-leap 2023), the query
raises `ValueError` instead of returning a record list. -/
theorem upcoming_birthdays_leap_day_error :
    get_upcoming_birthdays ⟨2023, 1, 1⟩ leapBook =
      .error (.valueError ("day is out of range for month")) := rfl

/-- C6 counterexample: `Name(" ")` succeeds on a whitespace-only (but
non-empty) string, contradicting the claim that whitespace-only input
fails. -/
theorem name_whitespace_accepted :
    mkName (" ") = .ok (" ") ∧ (" ") ≠ ("" : String) :=
  ⟨rfl, by decide⟩

/-- C6 (amended): `Name(s)` fails with `ValueError("Name cannot be
empty.")` exactly when s is the empty string, and succeeds with the stored
value equal to s verbatim exactly when s is non-empty (whitespace-only
strings included). -/
theorem name_construct_charact (s : String) :
    (mkName s = .ok s ↔ s ≠ "") ∧
    (mkName s = .error (.valueError ("Name cannot be empty.")) ↔ s = "") := by
  unfold mkName
  by_cases h : s = "" <;> simp [h]

/-- C8: `AddressBook.add_record(r)` always succeeds and stores r under the
key `r.name.value`: a subsequent `find` returns r for that key (silently
overwriting any previous entry) and is unchanged for every other key. -/
theorem add_record_find (book : AddressBook) (r : Record) (k : String) :
    (book.add_record r).find k = if k = r.name then some r else book.find k := by
  simp [AddressBook.add_record, AddressBook.find, dictGet_dictSet]

theorem takeWhile_append_eq {p : Char → Bool} (l1 : List Char) (c : Char) (l2 : List Char)
    (h1 : ∀ x ∈ l1, p x = true) (h2 : p c = false) :
    (l1 ++ c :: l2).takeWhile p = l1 ∧ (l1 ++ c :: l2).dropWhile p = c :: l2 := by
  induction l1 with
  | nil => simp [List.takeWhile_cons, List.dropWhile_cons, h2]
  | cons a l ih =>
    have ha : p a = true := h1 a (List.mem_cons_self a l)
    have ih2 := ih (fun x hx => h1 x (List.mem_cons_of_mem a hx))
    simp [List.takeWhile_cons, List.dropWhile_cons, ha, ih2.1, ih2.2]

theorem takeWhile_all_eq {p : Char → Bool} (l : List Char) (h : ∀ x ∈ l, p x = true) :
    l.takeWhile p = l ∧ l.dropWhile p = [] := by
  induction l with
  | nil => simp
  | cons a l ih =>
    have ha : p a = true := h a (List.mem_cons_self a l)
    have ih2 := ih (fun x hx => h x (List.mem_cons_of_mem a hx))
    simp [List.takeWhile_cons, List.dropWhile_cons, ha, ih2.1, ih2.2]

theorem digitChar_isDigit {k : Nat} (h : k < 10) : (Nat.digitChar k).isDigit = true := by
  interval_cases k <;> decide

theorem digitChar_toNat {k : Nat} (h : k < 10) : (Nat.digitChar k).toNat = 48 + k := by
  interval_cases k <;> decide

theorem pad2_digits {n : Nat} (h : n < 100) : ∀ c ∈ pad2 n, c.isDigit = true := by
  intro c hc
  simp only [pad2, List.mem_cons, List.not_mem_nil, or_false] at hc
  rcases hc with rfl | rfl
  · exact digitChar_isDigit (by omega)
  · exact digitChar_isDigit (by omega)

theorem pad4_digits {n : Nat} (h : n < 10000) : ∀ c ∈ pad4 n, c.isDigit = true := by
  intro c hc
  simp only [pad4, List.mem_cons, List.not_mem_nil, or_false] at hc
  rcases hc with rfl | rfl | rfl | rfl
  · exact digitChar_isDigit (by omega)
  · exact digitChar_isDigit (by omega)
  · exact digitChar_isDigit (by omega)
  · exact digitChar_isDigit (by omega)

theorem natOfDigits_pad2 {n : Nat} (h : n < 100) : natOfDigits (pad2 n) = n := by
  simp only [natOfDigits, pad2, List.foldl_cons, List.foldl_nil]
  rw [digitChar_toNat (show n / 10 < 10 by omega),
      digitChar_toNat (show n % 10 < 10 by omega)]
  omega

theorem natOfDigits_pad4 {n : Nat} (h : n < 10000) : natOfDigits (pad4 n) = n := by
  simp only [natOfDigits, pad4, List.foldl_cons, List.foldl_nil]
  rw [digitChar_toNat (show n / 1000 < 10 by omega),
      digitChar_toNat (show n / 100 % 10 < 10 by omega),
      digitChar_toNat (show n / 10 % 10 < 10 by omega),
      digitChar_toNat (show n % 10 < 10 by omega)]
  omega

theorem daysInMonth_le (y m : Nat) : daysInMonth y m ≤ 31 := by
  unfold daysInMonth
  split
  · split <;> omega
  · split <;> omega

/-- C9: for every valid calendar date, rendering it with
`strftime('%d.%m.%Y')` (the canonical DD.MM.YYYY form) and feeding the
string back to `Birthday` succeeds and re-renders to exactly the same
string. -/
theorem birthday_roundtrip (dt : Date) (h : isValidDate dt.year dt.month dt.day = true) :
    ∃ b : Date, mkBirthday (strftimeDMY dt) = .ok b ∧ strftimeDMY b = strftimeDMY dt := by
  obtain ⟨y, m, d⟩ := dt
  dsimp only at h
  have hv := h
  rw [isValidDate, decide_eq_true_eq] at hv
  obtain ⟨hy1, hy2, hm1, hm2, hd1, hd2⟩ := hv
  have hd31 : d ≤ 31 := le_trans hd2 (daysInMonth_le y m)
  have hdlt : d < 100 := by omega
  have hmlt : m < 100 := by omega
  have hylt : y < 10000 := by omega
  refine ⟨⟨y, m, d⟩, ?_, rfl⟩
  have t1 := takeWhile_append_eq (pad2 d) '.' (pad2 m ++ ('.' :: pad4 y))
    (pad2_digits hdlt) (by decide)
  have t2 := takeWhile_append_eq (pad2 m) '.' (pad4 y) (pad2_digits hmlt) (by decide)
  have t3 := takeWhile_all_eq (pad4 y) (pad4_digits hylt)
  have hdata : (strftimeDMY ⟨y, m, d⟩).data = pad2 d ++ ('.' :: (pad2 m ++ ('.' :: pad4 y))) := rfl
  rw [mkBirthday, hdata]
  simp only [parseDMY, t1.1, t1.2, t2.1, t2.2, t3.1, t3.2]
  rw [natOfDigits_pad2 hdlt, natOfDigits_pad2 hmlt, natOfDigits_pad4 hylt]
  have hcond : 1 ≤ (pad2 d).length ∧ (pad2 d).length ≤ 2 ∧
      1 ≤ d ∧ d ≤ 31 ∧
      1 ≤ (pad2 m).length ∧ (pad2 m).length ≤ 2 ∧
      1 ≤ m ∧ m ≤ 12 ∧
      (pad4 y).length = 4 ∧ isValidDate y m d = true := by
    refine ⟨by simp [pad2], by simp [pad2], by omega, by omega, by simp [pad2],
      by simp [pad2], by omega, by omega, rfl, h⟩
  rw [if_pos hcond]
  simp

/-- C9 witness: the leap date 29.02.2020 renders to "29.02.2020" and
round-trips. -/
theorem birthday_roundtrip_witness :
    ∃ b : Date, mkBirthday (strftimeDMY ⟨2020, 2, 29⟩) = .ok b ∧
      strftimeDMY b = strftimeDMY ⟨2020, 2, 29⟩ :=
  birthday_roundtrip ⟨2020, 2, 29⟩ (by decide)

/-- C3 counterexample: `Birthday("1.06.2020")` succeeds (with a
single-digit day token, `strptime`'s `%d` accepts one or two digits), so
the construction does not require the strict two-digit DD.MM.YYYY form the
claim states. -/
theorem birthday_single_digit_day_accepted :
    mkBirthday ("1.06.2020") = .ok ⟨2020, 6, 1⟩ := rfl

/-- C3 (amended): `Birthday(v)` succeeds exactly when v is a day token of
one or two digits (value 1..31), a dot, a month token of one or two digits
(value 1..12), a dot, and exactly four digits of year, the whole string
consumed, denoting a valid calendar date; every failure raises
`ValueError("Invalid date format. Use DD.MM.YYYY")`.  The claim's examples
hold: 29.02.2020 parses, 31.04.2020 and 2020-02-29 do not. -/
theorem birthday_construct_charact (s : String) (dt : Date) :
    (mkBirthday s = .error (.valueError ("Invalid date format. Use DD.MM.YYYY")) ∨
      ∃ dt2, mkBirthday s = .ok dt2) ∧
    (mkBirthday s = .ok dt ↔ claimBirthdayOk s dt) := by
  constructor
  · unfold mkBirthday
    cases parseDMY s.data with
    | none => exact Or.inl rfl
    | some d => exact Or.inr ⟨d, rfl⟩
  · constructor
    · intro hok
      unfold mkBirthday at hok
      cases hp : parseDMY s.data with
      | none => rw [hp] at hok; simp at hok
      | some d =>
        rw [hp] at hok
        simp only [Except.ok.injEq] at hok
        subst hok
        simp only [parseDMY] at hp
        split at hp
        case h_2 => simp at hp
        rename_i c1 rest1 heq1
        split at hp
        case isFalse => simp at hp
        rename_i hc1
        split at hp
        case h_2 => simp at hp
        rename_i c2 rest2 heq2
        split at hp
        case isFalse => simp at hp
        rename_i hc2
        split at hp
        case h_2 => simp at hp
        rename_i heq3
        split at hp
        case isFalse => simp at hp
        rename_i hcond
        obtain ⟨h1, h2, h3, h4, h5, h6, h7, h8, h9, h10⟩ := hcond
        simp only [Option.some.injEq] at hp
        have e3 : rest2.takeWhile Char.isDigit = rest2 := by
          conv_rhs => rw [← @List.takeWhile_append_dropWhile Char Char.isDigit rest2]
          rw [heq3, List.append_nil]
        have e2 : rest1 = rest1.takeWhile Char.isDigit ++ ('.' :: rest2) := by
          conv_lhs => rw [← @List.takeWhile_append_dropWhile Char Char.isDigit rest1]
          rw [heq2, hc2]
        have e1 : s.data = s.data.takeWhile Char.isDigit ++ ('.' :: rest1) := by
          conv_lhs => rw [← @List.takeWhile_append_dropWhile Char Char.isDigit s.data]
          rw [heq1, hc1]
        rw [e3] at h9 h10 hp
        refine ⟨s.data.takeWhile Char.isDigit, rest1.takeWhile Char.isDigit, rest2,
          ?_, ?_, ?_, ?_, h1, h2, h5, h6, h9, h3, h4, h7, h8, h10, hp.symm⟩
        · conv_lhs => rw [e1, e2]
        · exact fun c hcm => List.mem_takeWhile_imp hcm
        · exact fun c hcm => List.mem_takeWhile_imp hcm
        · intro c hcm
          rw [← e3] at hcm
          exact List.mem_takeWhile_imp hcm
    · intro hc
      obtain ⟨dk, mk, yk, hs, hddig, hmdig, hydig, hdl1, hdl2, hml1, hml2, hyl,
        hnd1, hnd2, hnm1, hnm2, hvd, hdteq⟩ := hc
      have t1 := takeWhile_append_eq dk '.' (mk ++ ('.' :: yk)) hddig (by decide)
      have t2 := takeWhile_append_eq mk '.' yk hmdig (by decide)
      have t3 := takeWhile_all_eq yk hydig
      unfold mkBirthday
      rw [hs]
      simp only [parseDMY, t1.1, t1.2, t2.1, t2.2, t3.1, t3.2]
      have hcall : 1 ≤ dk.length ∧ dk.length ≤ 2 ∧
          1 ≤ natOfDigits dk ∧ natOfDigits dk ≤ 31 ∧
          1 ≤ mk.length ∧ mk.length ≤ 2 ∧
          1 ≤ natOfDigits mk ∧ natOfDigits mk ≤ 12 ∧
          yk.length = 4 ∧
          isValidDate (natOfDigits yk) (natOfDigits mk) (natOfDigits dk) = true :=
        ⟨hdl1, hdl2, hnd1, hnd2, hml1, hml2, hnm1, hnm2, hyl, hvd⟩
      rw [if_pos hcall, hdteq]
      simp

theorem replaceYear_some {b : Date} {y : Nat} {x : Date}
    (h : replaceYear b y = some x) : x = ⟨y, b.month, b.day⟩ := by
  unfold replaceYear at h
  split at h
  · exact (Option.some_inj.mp h).symm
  · simp at h

theorem upcomingGo_filter (today nextWeek : Date) (rs : List Record) :
    ∀ l, upcomingGo today nextWeek rs = .ok l →
      l = rs.filter (claimIncluded today nextWeek) := by
  induction rs with
  | nil =>
    intro l h
    simp only [upcomingGo, Except.ok.injEq] at h
    simp [← h]
  | cons r rs ih =>
    intro l h
    cases hb : r.birthday with
    | none =>
      simp only [upcomingGo, hb] at h
      have hci : claimIncluded today nextWeek r = false := by
        simp [claimIncluded, hb]
      rw [List.filter_cons, hci]
      simp only [Bool.false_eq_true, if_false]
      exact ih l h
    | some b =>
      simp only [upcomingGo, hb] at h
      cases hr1 : replaceYear b today.year with
      | none => simp only [hr1] at h; simp at h
      | some nb =>
        have hnb := replaceYear_some hr1
        simp only [hr1] at h
        by_cases hlt : dateLt nb today = true
        · rw [if_pos hlt] at h
          cases hr2 : replaceYear b (today.year + 1) with
          | none => simp only [hr2] at h; simp at h
          | some nb2 =>
            have hnb2 := replaceYear_some hr2
            simp only [hr2] at h
            cases hrec : upcomingGo today nextWeek rs with
            | error e => simp only [hrec] at h; simp at h
            | ok l2 =>
              simp only [hrec, Except.ok.injEq] at h
              have hci : claimIncluded today nextWeek r =
                  (dateLe today nb2 && dateLe nb2 nextWeek) := by
                simp only [claimIncluded, hb]
                rw [← hnb, if_pos hlt, ← hnb2]
              rw [List.filter_cons, hci, ← ih l2 hrec, ← h]
        · rw [if_neg hlt] at h
          cases hrec : upcomingGo today nextWeek rs with
          | error e => simp only [hrec] at h; simp at h
          | ok l2 =>
            simp only [hrec, Except.ok.injEq] at h
            have hci : claimIncluded today nextWeek r =
                (dateLe today nb && dateLe nb nextWeek) := by
              simp only [claimIncluded, hb]
              rw [← hnb, if_neg hlt]
            rw [List.filter_cons, hci, ← ih l2 hrec, ← h]

/-- C1: whenever `get_upcoming_birthdays` returns a list (rather than
raising), that list consists of exactly those records of the book (in
book order) that have a birthday whose anniversary — the birthday with the
year replaced by today's year, advanced one year when strictly before
today — lies in the inclusive window [today, today + 7 days]; records
without a birthday are never included. -/
theorem upcoming_birthdays_exact (today : Date) (book : AddressBook) (l : List Record)
    (h : get_upcoming_birthdays today book = .ok l) :
    l = book.values.filter (claimIncluded today (addDays today 7)) :=
  upcomingGo_filter today (addDays today 7) book.values l h

/-- C1 witness: the spec scenario with today = 10.06.2024; A (12.06.1990)
is returned, B (01.01.1990, anniversary 01.01.2025) and C (no birthday)
are not. -/
theorem upcoming_birthdays_exact_witness :
    get_upcoming_birthdays ⟨2024, 6, 10⟩ scenarioBook = .ok [recA] ∧
    [recA] = scenarioBook.values.filter
      (claimIncluded ⟨2024, 6, 10⟩ (addDays ⟨2024, 6, 10⟩ 7)) :=
  ⟨rfl, upcoming_birthdays_exact ⟨2024, 6, 10⟩ scenarioBook [recA] rfl⟩

theorem mkName_error {s : String} {e : PyErr} (h : mkName s = .error e) :
    ∃ m, e = .valueError m := by
  unfold mkName at h
  split at h
  · simp only [Except.error.injEq] at h
    exact ⟨_, h.symm⟩
  · simp at h

theorem mkPhone_error {s : String} {e : PyErr} (h : mkPhone s = .error e) :
    ∃ m, e = .valueError m := by
  unfold mkPhone at h
  split at h
  · simp at h
  · simp only [Except.error.injEq] at h
    exact ⟨_, h.symm⟩

theorem mkBirthday_error {s : String} {e : PyErr} (h : mkBirthday s = .error e) :
    ∃ m, e = .valueError m := by
  unfold mkBirthday at h
  cases hp : parseDMY s.data with
  | some d => simp only [hp] at h; simp at h
  | none =>
    simp only [hp, Except.error.injEq] at h
    exact ⟨_, h.symm⟩

theorem mkRecord_error {s : String} {e : PyErr} (h : mkRecord s = .error e) :
    ∃ m, e = .valueError m := by
  unfold mkRecord at h
  cases hn : mkName s with
  | ok n => simp only [hn] at h; simp at h
  | error e2 =>
    simp only [hn, Except.error.injEq] at h
    exact h ▸ mkName_error hn

theorem addPhone_error {r : Record} {s : String} {e : PyErr}
    (h : r.add_phone s = .error e) : ∃ m, e = .valueError m := by
  unfold Record.add_phone at h
  cases hp : mkPhone s with
  | ok v => simp only [hp] at h; simp at h
  | error e2 =>
    simp only [hp, Except.error.injEq] at h
    exact h ▸ mkPhone_error hp

theorem addBirthday_error {r : Record} {s : String} {e : PyErr}
    (h : r.add_birthday s = .error e) : ∃ m, e = .valueError m := by
  unfold Record.add_birthday at h
  cases hp : mkBirthday s with
  | ok v => simp only [hp] at h; simp at h
  | error e2 =>
    simp only [hp, Except.error.injEq] at h
    exact h ▸ mkBirthday_error hp

theorem editPhonesGo_error {oldp newp : String} {ps : List String} :
    ∀ {e : PyErr}, editPhonesGo oldp newp ps = .error e → ∃ m, e = .valueError m := by
  induction ps with
  | nil =>
    intro e h
    simp only [editPhonesGo, Except.error.injEq] at h
    exact ⟨_, h.symm⟩
  | cons p ps ih =>
    intro e h
    simp only [editPhonesGo] at h
    split at h
    · cases hp : mkPhone newp with
      | ok v => simp only [hp] at h; simp at h
      | error e2 =>
        simp only [hp, Except.error.injEq] at h
        exact h ▸ mkPhone_error hp
    · cases hrec : editPhonesGo oldp newp ps with
      | ok ps2 => simp only [hrec] at h; simp at h
      | error e2 =>
        simp only [hrec, Except.error.injEq] at h
        exact h ▸ ih hrec

theorem editPhone_error {r : Record} {oldp newp : String} {e : PyErr}
    (h : r.edit_phone oldp newp = .error e) : ∃ m, e = .valueError m := by
  unfold Record.edit_phone at h
  cases hg : editPhonesGo oldp newp r.phones with
  | ok ps => simp only [hg] at h; simp at h
  | error e2 =>
    simp only [hg, Except.error.injEq] at h
    exact h ▸ editPhonesGo_error hg

theorem delete_error {book : AddressBook} {name : String} {e : PyErr}
    (h : book.delete name = .error e) : ∃ m, e = .valueError m := by
  unfold AddressBook.delete at h
  split at h
  · simp at h
  · simp only [Except.error.injEq] at h
    exact ⟨_, h.symm⟩

theorem upcomingGo_error {today nextWeek : Date} {rs : List Record} :
    ∀ {e : PyErr}, upcomingGo today nextWeek rs = .error e → ∃ m, e = .valueError m := by
  induction rs with
  | nil => intro e h; simp [upcomingGo] at h
  | cons r rs ih =>
    intro e h
    simp only [upcomingGo] at h
    cases hb : r.birthday with
    | none =>
      rw [hb] at h
      exact ih h
    | some b =>
      rw [hb] at h
      cases hr1 : replaceYear b today.year with
      | none =>
        simp only [hr1, Except.error.injEq] at h
        exact ⟨_, h.symm⟩
      | some nb =>
        simp only [hr1] at h
        by_cases hlt : dateLt nb today = true
        · rw [if_pos hlt] at h
          cases hr2 : replaceYear b (today.year + 1) with
          | none =>
            simp only [hr2, Except.error.injEq] at h
            exact ⟨_, h.symm⟩
          | some nb2 =>
            simp only [hr2] at h
            cases hrec : upcomingGo today nextWeek rs with
            | ok l2 => simp only [hrec] at h; simp at h
            | error e2 =>
              simp only [hrec, Except.error.injEq] at h
              exact h ▸ ih hrec
        · rw [if_neg hlt] at h
          cases hrec : upcomingGo today nextWeek rs with
          | ok l2 => simp only [hrec] at h; simp at h
          | error e2 =>
            simp only [hrec, Except.error.injEq] at h
            exact h ▸ ih hrec

theorem upcomingGo_birthday_some {today nextWeek : Date} {rs : List Record}
    {l : List Record} (h : upcomingGo today nextWeek rs = .ok l) :
    ∀ r ∈ l, r.birthday.isSome = true := by
  induction rs generalizing l with
  | nil =>
    simp only [upcomingGo, Except.ok.injEq] at h
    subst h
    simp
  | cons r rs ih =>
    simp only [upcomingGo] at h
    cases hb : r.birthday with
    | none =>
      rw [hb] at h
      exact ih h
    | some b =>
      rw [hb] at h
      cases hr1 : replaceYear b today.year with
      | none => simp only [hr1] at h; simp at h
      | some nb =>
        simp only [hr1] at h
        by_cases hlt : dateLt nb today = true
        · rw [if_pos hlt] at h
          cases hr2 : replaceYear b (today.year + 1) with
          | none => simp only [hr2] at h; simp at h
          | some nb2 =>
            simp only [hr2] at h
            cases hrec : upcomingGo today nextWeek rs with
            | error e2 => simp only [hrec] at h; simp at h
            | ok l2 =>
              simp only [hrec, Except.ok.injEq] at h
              subst h
              intro r2 hr2m
              by_cases hw : (dateLe today nb2 && dateLe nb2 nextWeek) = true
              · rw [if_pos hw] at hr2m
                rcases List.mem_cons.mp hr2m with rfl | hmem
                · rw [hb]; rfl
                · exact ih hrec r2 hmem
              · rw [if_neg hw] at hr2m
                exact ih hrec r2 hr2m
        · rw [if_neg hlt] at h
          cases hrec : upcomingGo today nextWeek rs with
          | error e2 => simp only [hrec] at h; simp at h
          | ok l2 =>
            simp only [hrec, Except.ok.injEq] at h
            subst h
            intro r2 hr2m
            by_cases hw : (dateLe today nb && dateLe nb nextWeek) = true
            · rw [if_pos hw] at hr2m
              rcases List.mem_cons.mp hr2m with rfl | hmem
              · rw [hb]; rfl
              · exact ih hrec r2 hmem
            · rw [if_neg hw] at hr2m
              exact ih hrec r2 hr2m

theorem birthLines_ok {l : List Record} (h : ∀ r ∈ l, r.birthday.isSome = true) :
    ∃ ss, birthLines l = .ok ss := by
  induction l with
  | nil => exact ⟨[], rfl⟩
  | cons r rs ih =>
    have hr : r.birthday.isSome = true := h r (List.mem_cons_self r rs)
    obtain ⟨b, hb⟩ := Option.isSome_iff_exists.mp hr
    obtain ⟨ss, hss⟩ := ih (fun r2 hm => h r2 (List.mem_cons_of_mem r hm))
    refine ⟨(r.name ++ ": " ++ strftimeDMY b) :: ss, ?_⟩
    simp only [birthLines, birthLine, hb, hss]

theorem add_contact_cmd_ok (args : List String) (book : AddressBook) :
    ∃ o, add_contact_cmd args book = .ok o := by
  unfold add_contact_cmd add_contact
  rcases args with _ | ⟨name, _ | ⟨phone, rest⟩⟩
  · exact ⟨_, rfl⟩
  · exact ⟨_, rfl⟩
  · dsimp only
    cases hf : book.find name with
    | some r =>
      dsimp only
      by_cases hp : phone = ""
      · rw [if_pos hp]; exact ⟨_, rfl⟩
      · rw [if_neg hp]
        cases ha : r.add_phone phone with
        | ok r2 => exact ⟨_, rfl⟩
        | error e2 =>
          obtain ⟨m, rfl⟩ := addPhone_error ha
          exact ⟨_, rfl⟩
    | none =>
      dsimp only
      cases hr : mkRecord name with
      | error e2 =>
        obtain ⟨m, rfl⟩ := mkRecord_error hr
        exact ⟨_, rfl⟩
      | ok r =>
        dsimp only
        by_cases hp : phone = ""
        · rw [if_pos hp]; exact ⟨_, rfl⟩
        · rw [if_neg hp]
          cases ha : r.add_phone phone with
          | ok r2 => exact ⟨_, rfl⟩
          | error e2 =>
            obtain ⟨m, rfl⟩ := addPhone_error ha
            exact ⟨_, rfl⟩

theorem change_phone_cmd_ok (args : List String) (book : AddressBook) :
    ∃ o, change_phone_cmd args book = .ok o := by
  unfold change_phone_cmd change_phone
  rcases args with _ | ⟨name, _ | ⟨oldp, _ | ⟨newp, _ | ⟨x4, rest⟩⟩⟩⟩
  · exact ⟨_, rfl⟩
  · exact ⟨_, rfl⟩
  · exact ⟨_, rfl⟩
  · dsimp only
    cases hf : book.find name with
    | none => exact ⟨_, rfl⟩
    | some r =>
      dsimp only
      cases he : r.edit_phone oldp newp with
      | ok r2 => exact ⟨_, rfl⟩
      | error e2 =>
        obtain ⟨m, rfl⟩ := editPhone_error he
        exact ⟨_, rfl⟩
  · exact ⟨_, rfl⟩

theorem show_phones_cmd_ok (args : List String) (book : AddressBook) :
    ∃ o, show_phones_cmd args book = .ok o := by
  unfold show_phones_cmd show_phones
  rcases args with _ | ⟨name, rest⟩
  · exact ⟨_, rfl⟩
  · dsimp only
    cases hf : book.find name with
    | none => exact ⟨_, rfl⟩
    | some r => exact ⟨_, rfl⟩

theorem add_birthday_cmd_ok (args : List String) (book : AddressBook) :
    ∃ o, add_birthday_cmd args book = .ok o := by
  unfold add_birthday_cmd add_birthday
  rcases args with _ | ⟨name, _ | ⟨bd, _ | ⟨x3, rest⟩⟩⟩
  · exact ⟨_, rfl⟩
  · exact ⟨_, rfl⟩
  · dsimp only
    cases hf : book.find name with
    | none => exact ⟨_, rfl⟩
    | some r =>
      dsimp only
      cases hab : r.add_birthday bd with
      | ok r2 => exact ⟨_, rfl⟩
      | error e2 =>
        obtain ⟨m, rfl⟩ := addBirthday_error hab
        exact ⟨_, rfl⟩
  · exact ⟨_, rfl⟩

theorem show_birthday_cmd_ok (args : List String) (book : AddressBook) :
    ∃ o, show_birthday_cmd args book = .ok o := by
  unfold show_birthday_cmd show_birthday
  rcases args with _ | ⟨name, rest⟩
  · exact ⟨_, rfl⟩
  · dsimp only
    cases hf : book.find name with
    | none => exact ⟨_, rfl⟩
    | some r =>
      dsimp only
      cases hb : r.birthday with
      | some b => exact ⟨_, rfl⟩
      | none => exact ⟨_, rfl⟩

theorem birthdays_cmd_ok (today : Date) (args : List String) (book : AddressBook) :
    ∃ o, birthdays_cmd today args book = .ok o := by
  unfold birthdays_cmd birthdays
  cases hg : get_upcoming_birthdays today book with
  | error e =>
    unfold get_upcoming_birthdays at hg
    obtain ⟨m, rfl⟩ := upcomingGo_error hg
    exact ⟨_, rfl⟩
  | ok ups =>
    dsimp only
    by_cases he : ups.isEmpty = true
    · rw [if_pos he]; exact ⟨_, rfl⟩
    · rw [if_neg he]
      unfold get_upcoming_birthdays at hg
      obtain ⟨ss, hss⟩ := birthLines_ok (upcomingGo_birthday_some hg)
      rw [hss]
      exact ⟨_, rfl⟩

theorem delete_contact_cmd_ok (args : List String) (book : AddressBook) :
    ∃ o, delete_contact_cmd args book = .ok o := by
  unfold delete_contact_cmd delete_contact
  rcases args with _ | ⟨name, rest⟩
  · exact ⟨_, rfl⟩
  · dsimp only
    cases hd : book.delete name with
    | ok b2 => exact ⟨_, rfl⟩
    | error e2 =>
      obtain ⟨m, rfl⟩ := delete_error hd
      exact ⟨_, rfl⟩

/-- C7: for every parsed argument list and address book (and reference
date, for `birthdays`), each `input_error`-wrapped command returns a
result string and never lets an exception escape: every `ValueError` and
`IndexError` raised inside (validation failures, lookup failures, unpack
or indexing errors, and the leap-day `ValueError` of the upcoming-birthday
query) is converted to a returned descriptive string. -/
theorem commands_never_raise (args : List String) (book : AddressBook) (today : Date) :
    (∃ o, add_contact_cmd args book = .ok o) ∧
    (∃ o, change_phone_cmd args book = .ok o) ∧
    (∃ o, show_phones_cmd args book = .ok o) ∧
    (∃ o, add_birthday_cmd args book = .ok o) ∧
    (∃ o, show_birthday_cmd args book = .ok o) ∧
    (∃ o, birthdays_cmd today args book = .ok o) ∧
    (∃ o, delete_contact_cmd args book = .ok o) :=
  ⟨add_contact_cmd_ok args book, change_phone_cmd_ok args book,
   show_phones_cmd_ok args book, add_birthday_cmd_ok args book,
   show_birthday_cmd_ok args book, birthdays_cmd_ok today args book,
   delete_contact_cmd_ok args book⟩

theorem phoneValidate_ne_empty {p : String} (h : phoneValidate p = true) : p ≠ "" := by
  intro he
  rw [he] at h
  exact absurd h (by decide)

/-- C10: when `name` already keys a record and the phone argument is
valid, the contact-level add command does not replace the record: it
returns "Contact updated.", keeps the record's birthday and stored phones
in order while appending the new phone to that same record, and leaves
every other key's entry untouched (append-phone, not the overwriting
upsert of `add_record`). -/
theorem add_contact_appends (book : AddressBook) (name phone : String) (r : Record)
    (hf : book.find name = some r) (hv : phoneValidate phone = true) :
    (add_contact [name, phone] book).1 = .ok ("Contact updated.") ∧
    AddressBook.find (add_contact [name, phone] book).2 name =
      some { r with phones := r.phones ++ [phone] } ∧
    ∀ k, k ≠ name → AddressBook.find (add_contact [name, phone] book).2 k = book.find k := by
  have hp : phone ≠ "" := phoneValidate_ne_empty hv
  have ha : r.add_phone phone = .ok { r with phones := r.phones ++ [phone] } := by
    unfold Record.add_phone mkPhone
    rw [if_pos hv]
  have hbody : add_contact [name, phone] book =
      (.ok ("Contact updated."),
        ⟨dictSet book.data name { r with phones := r.phones ++ [phone] }⟩) := by
    unfold add_contact
    dsimp only
    simp only [hf, ha, if_neg hp]
  rw [hbody]
  refine ⟨rfl, ?_, ?_⟩
  · unfold AddressBook.find
    rw [dictGet_dictSet]
    simp
  · intro k hk
    unfold AddressBook.find
    rw [dictGet_dictSet, if_neg hk]

/-- C10 witness: adding phone 2222222222 to the existing contact Bob
appends to Bob's phone list, keeps the birthday, and leaves the (absent)
key Eve unaffected. -/
theorem add_contact_appends_witness :
    (add_contact ["Bob", "2222222222"] bobBook).1 = .ok ("Contact updated.") ∧
    AddressBook.find (add_contact ["Bob", "2222222222"] bobBook).2 "Bob" =
      some { name := "Bob", phones := ["1111111111"] ++ ["2222222222"],
             birthday := some ⟨1990, 6, 12⟩ } ∧
    AddressBook.find (add_contact ["Bob", "2222222222"] bobBook).2 "Eve" =
      bobBook.find "Eve" :=
  ⟨(add_contact_appends bobBook "Bob" "2222222222"
      ⟨"Bob", ["1111111111"], some ⟨1990, 6, 12⟩⟩ rfl (by decide)).1,
   (add_contact_appends bobBook "Bob" "2222222222"
      ⟨"Bob", ["1111111111"], some ⟨1990, 6, 12⟩⟩ rfl (by decide)).2.1,
   (add_contact_appends bobBook "Bob" "2222222222"
      ⟨"Bob", ["1111111111"], some ⟨1990, 6, 12⟩⟩ rfl (by decide)).2.2 "Eve" (by decide)⟩
